import Mathlib

/-!
Verification development for `sra_fetch_metadata.py`.

The file shallowly embeds the program:
* `XmlDictConfig` / `XmlListConfig` — the heuristic XML normalizer
  (classes `XmlDictConfig`, `XmlListConfig` in the source);
* `parse_xml`, `parseFragment` — wrapping a fragment in a synthetic
  `<root>` element and normalizing it (function `parse_xml` plus the
  wrapping done in `main`);
* the pagination / assembly / filtering / flattening pipeline of `main`
  and `print_experiment_csv`.

Python values are embedded as `NValue`: `str` becomes `scalar`, `None`
becomes `null`, `dict` becomes `mapping` (an insertion-ordered association
list, with `dictUpdate` reproducing `dict.update` overwrite-in-place
semantics), `list` becomes `vlist`.
-/

namespace Sra

/-- Generic normalized value: Python `str` is `scalar`, `None` is `null`,
`dict` is `mapping` (insertion-ordered association list), `list` is
`vlist`. -/
inductive NValue where
  | scalar (s : String)
  | null
  | mapping (entries : List (String × NValue))
  | vlist (elems : List NValue)

mutual
/-- XML element tree, mutual with the list of children so that the
translated normalizer is structurally recursive.  `text` is `none` when the
element has no text node, mirroring `Element.text is None` in
`xml.etree.ElementTree`; `attrs` is the attribute list in document order,
mirroring `element.items()`. -/
inductive Xml where
  | elem (tag : String) (attrs : List (String × String)) (text : Option String) (children : XmlList)
/-- A list of sibling XML elements. -/
inductive XmlList where
  | nil
  | cons (head : Xml) (tail : XmlList)
end

/-- Tag of an element (`element.tag`). -/
def Xml.tag : Xml → String
  | .elem t _ _ _ => t

/-- Attributes of an element (`element.items()`). -/
def Xml.attrs : Xml → List (String × String)
  | .elem _ a _ _ => a

/-- Text of an element (`element.text`). -/
def Xml.text : Xml → Option String
  | .elem _ _ t _ => t

/-- Children of an element (iterating the element). -/
def Xml.children : Xml → XmlList
  | .elem _ _ _ c => c

/-- `d.update({k: v})` on a Python dict: overwrite in place when the key is
present (keeping its position in insertion order), append otherwise. -/
def dictUpdate (d : List (String × NValue)) (k : String) (v : NValue) :
    List (String × NValue) :=
  if d.any (fun p => p.1 == k) then
    d.map (fun p => if p.1 == k then (k, v) else p)
  else d ++ [(k, v)]

/-- `d.update(other)` for an association list `other`, key by key. -/
def updAll (d : List (String × NValue)) (kvs : List (String × NValue)) :
    List (String × NValue) :=
  kvs.foldl (fun acc p => dictUpdate acc p.1 p.2) d

/-- `dict(element.items())`: the attribute list as a dict of strings. -/
def attrsDict (attrs : List (String × String)) : List (String × NValue) :=
  attrs.map (fun p => (p.1, NValue.scalar p.2))

/-- Dictionary lookup `d[k]`, `none` when the key is absent (Python raises
`KeyError` there). -/
def lookupD (d : List (String × NValue)) (k : String) : Option NValue :=
  match d.find? (fun p => p.1 == k) with
  | some p => some p.2
  | none => none

mutual

/-- Body of `XmlDictConfig.__init__`: start from the parent's attributes
(`self.update(dict(parent_element.items()))`) and fold the per-child update
loop over the children. -/
def dictFold (acc : List (String × NValue)) : XmlList → List (String × NValue)
  | .nil => acc
  | .cons e rest => dictFold (dictUpdate acc e.tag (childValue e)) rest

/-- The value stored for one child `element` of the loop in
`XmlDictConfig.__init__`: the three branches `if element:` (the element has
child elements), `elif element.items():` (attributes, no children — the text
is silently discarded), `else:` (raw `element.text`, untrimmed, `None` when
absent). -/
def childValue : Xml → NValue
  | .elem _ attrs text children =>
    match children with
    | .nil =>
      -- no child elements: `elif element.items()` then `else` branch
      if attrs.isEmpty then
        match text with
        | none => NValue.null
        | some t => NValue.scalar t
      else NValue.mapping (attrsDict attrs)
    | .cons c rest =>
      let aDict : List (String × NValue) :=
        match rest with
        | .nil => dictFold (updAll [] (attrsDict attrs)) (XmlList.cons c rest)
        | .cons c2 _ =>
          if c.tag != c2.tag then
            dictFold (updAll [] (attrsDict attrs)) (XmlList.cons c rest)
          else
            [(c.tag, NValue.vlist (listConfig (XmlList.cons c rest)))]
      -- `if element.items(): aDict.update(dict(element.items()))`
      NValue.mapping (updAll aDict (attrsDict attrs))

/-- `XmlListConfig.__init__` over the children of the element handed to it:
childless elements and dict-shaped elements append `XmlDictConfig(element)`,
list-shaped elements recurse.  (The `elif element.text` branch of the source
is unreachable: iteration never yields `None`.) -/
def listConfig : XmlList → List NValue
  | .nil => []
  | .cons e rest =>
    let v : NValue :=
      match e with
      | .elem _ attrs _ children =>
        match children with
        | .nil => NValue.mapping (updAll [] (attrsDict attrs))
        | .cons c crest =>
          match crest with
          | .nil => NValue.mapping (dictFold (updAll [] (attrsDict attrs)) (XmlList.cons c crest))
          | .cons c2 _ =>
            if c.tag != c2.tag then
              NValue.mapping (dictFold (updAll [] (attrsDict attrs)) (XmlList.cons c crest))
            else
              NValue.vlist (listConfig (XmlList.cons c crest))
    v :: listConfig rest

end

/-- `XmlDictConfig(parent_element)` as a plain association list. -/
def XmlDictConfig (parent : Xml) : List (String × NValue) :=
  dictFold (updAll [] (attrsDict parent.attrs)) parent.children

/-- `parse_xml(xml_string)`: parse and normalize (the string-to-tree step of
`ElementTree.fromstring` is external; its result is the `Xml` argument). -/
def parse_xml (root : Xml) : List (String × NValue) :=
  XmlDictConfig root

/-- The wrapping `'<root>' + fragment + '</root>'` done in `main` before
each `parse_xml` call. -/
def wrapRoot (frag : XmlList) : Xml :=
  Xml.elem "root" [] none frag

/-- Normalization of a fragment as `main` performs it. -/
def parseFragment (frag : XmlList) : List (String × NValue) :=
  parse_xml (wrapRoot frag)

/-! ## The pipeline of `main` -/

/-- Does a character list start with the pattern? (helper for the error
marker test). -/
def startsWithSeq : List Char → List Char → Bool
  | [], _ => true
  | _ :: _, [] => false
  | p :: ps, h :: hs => p == h && startsWithSeq ps hs

/-- Does the pattern occur as a contiguous subsequence? -/
def containsSeq (pat : List Char) : List Char → Bool
  | [] => pat.isEmpty
  | h :: hs => startsWithSeq pat (h :: hs) || containsSeq pat hs

/-- `re.search('\"error\":', body)`: the pattern has no regex
metacharacters, so it is a plain substring search for `"error":` anywhere in
the raw response body. -/
def hasErrorMarker (s : String) : Bool :=
  containsSeq ("\"error\":".data) s.data

/-- One entry of `biosample_data['result'][uid]`: the raw `expxml` and
`runs` XML fragments (the external JSON decoding and `ElementTree.fromstring`
steps are abstracted: fragments arrive as element lists). -/
structure UidEntry where
  expxml : XmlList
  runs : XmlList

/-- A decoded page payload: the entries of `result`, in `uids` order. -/
abbrev PagePayload := List UidEntry

/-- One transport response: HTTP status, raw body text, and the result of
JSON-decoding the body (`none` when `.json()` raises `JSONDecodeError`). -/
structure PageResp where
  status : Nat
  body : String
  payload : Option PagePayload

/-- The external blocking transport: the summary response for a given
`retstart` (all other query parameters are constants in the source). -/
abbrev Transport := Nat → PageResp

/-- A summary request as issued by the loop: its `retstart` and `retmax`
parameters. -/
structure Request where
  retstart : Nat
  retmax : Nat
deriving DecidableEq

/-- A normalized experiment record (`parsed_experiment`), a Python dict. -/
abbrev Record := List (String × NValue)

/-- Lines 185–191 of `main`: normalize the wrapped `expxml` and `runs`
fragments, then set `parsed_experiment['runs'] = [parsed_runs['Run']]`.
`none` models the uncaught `KeyError` when the normalized runs dict has no
`Run` key. -/
def assembleRecord (u : UidEntry) : Option Record :=
  let e := parseFragment u.expxml
  let rp := parseFragment u.runs
  match lookupD rp "Run" with
  | none => none
  | some runVal => some (dictUpdate e "runs" (NValue.vlist [runVal]))

/-- Line 192: `"ILLUMINA" in parsed_experiment['Instrument'].keys()`.
`none` models the uncaught `KeyError`/`AttributeError` when `Instrument` is
absent or not a dict. -/
def keepRecord (r : Record) : Option Bool :=
  match lookupD r "Instrument" with
  | some (NValue.mapping m) => some (m.any (fun p => p.1 == "ILLUMINA"))
  | _ => none

/-- The `for uid in ...` loop over one page: assemble each record and keep
it only when the filter passes; `none` models a crash while processing some
entry. -/
def assemblePage : List UidEntry → Option (List Record)
  | [] => some []
  | u :: rest =>
    match assembleRecord u with
    | none => none
    | some r =>
      match keepRecord r with
      | none => none
      | some keep =>
        match assemblePage rest with
        | none => none
        | some rs => some (if keep then r :: rs else rs)

/-! ## The flattener `print_experiment_csv` -/

/-- Lookup `d[k]` expecting a string (any other value makes the later
`','.join` or subscription raise, modeled as `none`). -/
def getS (d : Record) (k : String) : Option String :=
  match lookupD d k with
  | some (NValue.scalar s) => some s
  | _ => none

/-- Lookup `d[k]` expecting a dict. -/
def getM (d : Record) (k : String) : Option Record :=
  match lookupD d k with
  | some (NValue.mapping m) => some m
  | _ => none

/-- `d[k1][k2]` expecting a string. -/
def getS2 (d : Record) (k1 k2 : String) : Option String :=
  match getM d k1 with
  | some m => getS m k2
  | none => none

/-- `d[k1][k2][k3]` expecting a string. -/
def getS3 (d : Record) (k1 k2 k3 : String) : Option String :=
  match getM d k1 with
  | some m => getS2 m k2 k3
  | none => none

/-- Sequence a list of field reads, failing at the first absent one, as
Python evaluates the elements of the list literal in order. -/
def seqO : List (Option String) → Option (List String)
  | [] => some []
  | o :: rest =>
    match o with
    | none => none
    | some s =>
      match seqO rest with
      | none => none
      | some xs => some (s :: xs)

/-- The 18 experiment-level fields of the row printed by
`print_experiment_csv`, in source order (everything after `run['acc']`). -/
def expFields (e : Record) : Option (List String) :=
  seqO [
    getS e "Bioproject",
    getS2 e "Experiment" "acc",
    getS2 e "Experiment" "name",
    getS2 e "Organism" "ScientificName",
    getS2 e "Instrument" "ILLUMINA",
    getS2 e "Submitter" "center_name",
    getS2 e "Study" "acc",
    getS2 e "Study" "name",
    getS2 e "Sample" "acc",
    getS2 e "Sample" "name",
    getS3 e "Summary" "Statistics" "total_size",
    getS3 e "Summary" "Statistics" "total_runs",
    getS3 e "Summary" "Statistics" "total_spots",
    getS3 e "Summary" "Statistics" "total_bases",
    getS2 e "Library_descriptor" "LIBRARY_NAME",
    getS2 e "Library_descriptor" "LIBRARY_STRATEGY",
    getS2 e "Library_descriptor" "LIBRARY_SOURCE",
    getS2 e "Library_descriptor" "LIBRARY_SELECTION"]

/-- A value expected to be a dict (`run['acc']` subscription). -/
def asMapping : NValue → Option Record
  | NValue.mapping m => some m
  | _ => none

/-- The row printed for one `run` of `e['runs']`: `run['acc']` first, then
the 18 experiment-level fields. -/
def rowOfRun (e : Record) (run : NValue) : Option (List String) :=
  match asMapping run with
  | none => none
  | some rm =>
    match getS rm "acc" with
    | none => none
    | some acc =>
      match expFields e with
      | none => none
      | some rest => some (acc :: rest)

/-- The `for run in e['runs']` loop: rows printed (in order) and whether the
loop finished without raising.  On a failure, the rows already printed
remain. -/
def mapRows (e : Record) : List NValue → List (List String) × Bool
  | [] => ([], true)
  | run :: rest =>
    match rowOfRun e run with
    | none => ([], false)
    | some row =>
      let p := mapRows e rest
      (row :: p.1, p.2)

/-- `print_experiment_csv(e)`: rows printed and success flag.  `e['runs']`
is subscripted and iterated; anything but a list fails before printing a
full row. -/
def print_experiment_csv (e : Record) : List (List String) × Bool :=
  match lookupD e "runs" with
  | some (NValue.vlist runs) => mapRows e runs
  | _ => ([], false)

/-- Lines 196–197 of `main`: print every experiment accumulated so far
(the loop sits inside the page loop, so it re-prints earlier pages'
records). -/
def flattenAcc : List Record → List (List String) × Bool
  | [] => ([], true)
  | e :: rest =>
    let p := print_experiment_csv e
    if p.2 then
      let q := flattenAcc rest
      (p.1 ++ q.1, q.2)
    else (p.1, false)

/-- The `output_fields` list of `main`, verbatim: 18 Python strings, one of
which (`'instrument,submitter'`) contains an embedded comma. -/
def output_fields : List String :=
  ["run_accession",
   "bioproject_accession",
   "experiment_accession",
   "experiment_title",
   "organism_name",
   "instrument,submitter",
   "study_accession",
   "study_title",
   "sample_accession",
   "sample_title",
   "total_size_mb",
   "total_runs",
   "total_spots",
   "total_bases",
   "library_name",
   "library_strategy",
   "library_source",
   "library_selection"]

/-- The printed header line `','.join(output_fields)`. -/
def headerLine : String := String.intercalate "," output_fields

/-! ## The page loop -/

/-- Mutable state across the `for retstart in intervals` loop:
`dat` is `biosample_data`, `exps` the accumulated `experiments` list,
`rows` the data rows printed so far, `reqs` the summary requests issued so
far, and `aborted` whether the process has terminated (via `exit(1)` or an
uncaught exception). -/
structure SimState where
  dat : Option PagePayload
  exps : List Record
  rows : List (List String)
  reqs : List Request
  aborted : Bool

/-- State before the first page: no payload, nothing accumulated. -/
def initState : SimState := ⟨none, [], [], [], false⟩

/-- Lines 159–176 of `main`: when a continuation token is present, issue
the summary request for this `retstart` (with `retmax = 500`); refresh
`biosample_data` only when the status is 200 and the body does not contain
the error marker; a body that fails JSON decoding is `exit(1)`. -/
def refreshData (t : Transport) (webenv : Bool) (st : SimState) (r : Nat) :
    SimState :=
  if webenv then
    let resp := t r
    let st1 := { st with reqs := st.reqs ++ [Request.mk r 500] }
    if resp.status == 200 && !hasErrorMarker resp.body then
      match resp.payload with
      | some p => { st1 with dat := some p }
      | none => { st1 with aborted := true }
    else st1
  else st

/-- Lines 178–197 of `main`: subscript `biosample_data` (an uncaught
`TypeError` when it is still `None`), assemble and filter the page's
records, append them to `experiments`, and re-print the entire accumulated
`experiments` list. -/
def processData (st : SimState) : SimState :=
  match st.dat with
  | none => { st with aborted := true }
  | some p =>
    match assemblePage p with
    | none => { st with aborted := true }
    | some kept =>
      let exps2 := st.exps ++ kept
      let q := flattenAcc exps2
      { st with exps := exps2, rows := st.rows ++ q.1, aborted := !q.2 }

/-- One iteration of the page loop. -/
def stepPage (t : Transport) (webenv : Bool) (st : SimState) (r : Nat) :
    SimState :=
  if st.aborted then st
  else
    let st1 := refreshData t webenv st r
    if st1.aborted then st1 else processData st1

/-- `range(0, max_samples + 1, 500)`. -/
def intervals (M : Nat) : List Nat :=
  (List.range (M / 500 + 1)).map (fun i => i * 500)

/-- The whole page loop of `main`, after the initial search call produced
(or failed to produce) a continuation token `webenv`. -/
def runPipeline (t : Transport) (webenv : Bool) (M : Nat) : SimState :=
  (intervals M).foldl (stepPage t webenv) initState

/-! ## Concrete inputs used by the counterexamples and witnesses -/

/-- A childless element, e.g. `<Run acc="R1"/>`. -/
def leaf (tag : String) (attrs : List (String × String)) : Xml :=
  Xml.elem tag attrs none XmlList.nil

/-- Build an `XmlList` from a `List Xml`. -/
def xl (es : List Xml) : XmlList :=
  es.foldr XmlList.cons XmlList.nil

/-- The fragment `<x>1</x><x>2</x>` (children of the synthetic root in
`<root><x>1</x><x>2</x></root>`). -/
def c1frag : XmlList :=
  xl [Xml.elem "x" [] (some "1") XmlList.nil,
      Xml.elem "x" [] (some "2") XmlList.nil]

/-- A fragment whose single child has two same-tag children:
`<Runs><Run a="1"/><Run a="2"/></Runs>`. -/
def c1bfrag : XmlList :=
  xl [Xml.elem "Runs" [] none
        (xl [leaf "Run" [("a", "1")], leaf "Run" [("a", "2")]])]

/-- An `expxml` fragment carrying every field `print_experiment_csv`
reads, with platform `ILLUMINA`. -/
def expFragA : XmlList :=
  xl [Xml.elem "Bioproject" [] (some "PRJ1") XmlList.nil,
      leaf "Experiment" [("acc", "E1"), ("name", "EN1")],
      leaf "Organism" [("ScientificName", "Org1")],
      leaf "Instrument" [("ILLUMINA", "MiSeq")],
      leaf "Submitter" [("center_name", "C1")],
      leaf "Study" [("acc", "ST1"), ("name", "STN1")],
      leaf "Sample" [("acc", "SA1"), ("name", "SAN1")],
      Xml.elem "Summary" [] none
        (xl [leaf "Statistics"
              [("total_size", "10"), ("total_runs", "1"),
               ("total_spots", "5"), ("total_bases", "500")]]),
      leaf "Library_descriptor"
        [("LIBRARY_NAME", "L1"), ("LIBRARY_STRATEGY", "WGS"),
         ("LIBRARY_SOURCE", "GENOMIC"), ("LIBRARY_SELECTION", "RANDOM")]]

/-- An `expxml` fragment whose `Instrument` mapping has no `ILLUMINA`
key. -/
def expFragN : XmlList :=
  xl [leaf "Instrument" [("OXFORD_NANOPORE", "MinION")]]

/-- A `runs` fragment with a single run `R1`. -/
def runsFragA : XmlList := xl [leaf "Run" [("acc", "R1")]]

/-- A `runs` fragment with a single run `R2`. -/
def runsFragB : XmlList := xl [leaf "Run" [("acc", "R2")]]

/-- A page entry assembling to an `ILLUMINA` record with run `R1`. -/
def entryA : UidEntry := ⟨expFragA, runsFragA⟩

/-- A page entry assembling to an `ILLUMINA` record with run `R2`. -/
def entryB : UidEntry := ⟨expFragA, runsFragB⟩

/-- A page entry assembling to a record that fails the platform filter. -/
def entryN : UidEntry := ⟨expFragN, runsFragA⟩

/-- The row `print_experiment_csv` prints for `entryA`'s record. -/
def rowA : List String :=
  ["R1", "PRJ1", "E1", "EN1", "Org1", "MiSeq", "C1", "ST1", "STN1",
   "SA1", "SAN1", "10", "1", "5", "500", "L1", "WGS", "GENOMIC", "RANDOM"]

/-- The row `print_experiment_csv` prints for `entryB`'s record. -/
def rowB : List String :=
  ["R2", "PRJ1", "E1", "EN1", "Org1", "MiSeq", "C1", "ST1", "STN1",
   "SA1", "SAN1", "10", "1", "5", "500", "L1", "WGS", "GENOMIC", "RANDOM"]

/-- The assembled record of `entryA`. -/
def recA : Record := (assembleRecord entryA).getD []

/-- The records kept from the page `[entryA, entryN]`. -/
def keptC6 : List Record := [recA]

/-- A normalized run value `{'acc': 'R1'}`. -/
def run1v : NValue := NValue.mapping [("acc", NValue.scalar "R1")]

/-- A normalized run value `{'acc': 'R2'}`. -/
def run2v : NValue := NValue.mapping [("acc", NValue.scalar "R2")]

/-- An experiment record whose `runs` field holds two attached runs. -/
def rec2 : Record :=
  dictUpdate (parseFragment expFragA) "runs" (NValue.vlist [run1v, run2v])

/-- Transport for the duplication trace: page 0 yields `entryA`, every
later page yields `entryB`. -/
def tC2 : Transport := fun r =>
  if r == 0 then ⟨200, "page0", some [entryA]⟩
  else ⟨200, "page1", some [entryB]⟩

/-- Transport for the error-marker trace: page 0 is good, page 500's body
contains the API error marker, page 1000 is good and empty. -/
def tC4 : Transport := fun r =>
  if r == 0 then ⟨200, "page0", some [entryA]⟩
  else if r == 500 then ⟨200, "\"error\": \"invalid\"", some []⟩
  else ⟨200, "page2", some []⟩

/-- A transport whose response body contains the substring `"error":`
inside otherwise legitimate data while the payload decodes fine. -/
def tC9 : Transport := fun _ =>
  ⟨200, "title: my \"error\": handling study", some [entryA]⟩

/-- A benign transport: every page is status 200, no marker, empty
result list. -/
def tBenign : Transport := fun _ => ⟨200, "ok", some []⟩

/-! ## Helper lemmas -/

/-- A step from an already-terminated state does nothing. -/
theorem stepPage_of_aborted (t : Transport) (w : Bool) (st : SimState) (r : Nat)
    (h : st.aborted = true) : stepPage t w st r = st := by
  simp [stepPage, h]

/-- Folding from an already-terminated state does nothing. -/
theorem foldl_of_aborted (t : Transport) (w : Bool) :
    ∀ (L : List Nat) (st : SimState), st.aborted = true →
      L.foldl (stepPage t w) st = st := by
  intro L
  induction L with
  | nil => intro st _; rfl
  | cons r L ih =>
    intro st h
    simp only [List.foldl_cons]
    rw [stepPage_of_aborted t w st r h]
    exact ih st h

/-- Processing a page payload never touches the request log. -/
theorem processData_reqs (st : SimState) : (processData st).reqs = st.reqs := by
  obtain ⟨dat, exps, rows, reqs, ab⟩ := st
  cases dat with
  | none => rfl
  | some p =>
    unfold processData
    cases hap : assemblePage p with
    | none => simp [hap]
    | some kept => simp [hap]

/-- With a continuation token, the refresh phase always logs the request
for this page with `retmax = 500`. -/
theorem refreshData_reqs (t : Transport) (st : SimState) (r : Nat) :
    (refreshData t true st r).reqs = st.reqs ++ [Request.mk r 500] := by
  unfold refreshData
  simp only [if_true]
  split
  · split <;> rfl
  · rfl

/-- A non-terminated step with a token logs exactly one request. -/
theorem stepPage_reqs (t : Transport) (st : SimState) (r : Nat)
    (h : st.aborted = false) :
    (stepPage t true st r).reqs = st.reqs ++ [Request.mk r 500] := by
  unfold stepPage
  rw [h]
  simp only [Bool.false_eq_true, if_false]
  split
  · exact refreshData_reqs t st r
  · rw [processData_reqs]
    exact refreshData_reqs t st r

/-- Request log of the whole loop, provided the run did not terminate
early. -/
theorem runPipeline_reqs_aux (t : Transport) :
    ∀ (L : List Nat) (st : SimState),
      (L.foldl (stepPage t true) st).aborted = false →
      (L.foldl (stepPage t true) st).reqs =
        st.reqs ++ L.map (fun r => Request.mk r 500) := by
  intro L
  induction L with
  | nil => intro st _; simp
  | cons r L ih =>
    intro st h
    simp only [List.foldl_cons] at h
    simp only [List.foldl_cons, List.map_cons]
    have hst : st.aborted = false := by
      by_contra hc
      have hc' : st.aborted = true := by revert hc; cases st.aborted <;> simp
      rw [stepPage_of_aborted t true st r hc', foldl_of_aborted t true L st hc',
        hc'] at h
      cases h
    rw [ih (stepPage t true st r) h, stepPage_reqs t st r hst]
    simp

/-- The retstart values of `range(0, M + 1, 500)` are exactly the multiples
of 500 that are at most `M`. -/
theorem mem_intervals (M r : Nat) : r ∈ intervals M ↔ (500 ∣ r ∧ r ≤ M) := by
  unfold intervals
  simp only [List.mem_map, List.mem_range]
  constructor
  · rintro ⟨i, hi, rfl⟩
    constructor
    · exact ⟨i, by omega⟩
    · omega
  · rintro ⟨⟨k, rfl⟩, hle⟩
    exact ⟨k, by omega, by omega⟩

/-- Shape of a printed row: the run's accession followed by the 18
experiment-level fields. -/
theorem rowOfRun_shape (e : Record) (run : NValue) (row : List String)
    (h : rowOfRun e run = some row) :
    ∃ acc rest, expFields e = some rest ∧ row = acc :: rest := by
  unfold rowOfRun at h
  cases hm : asMapping run with
  | none => simp only [hm] at h; exact Option.noConfusion h
  | some rm =>
    simp only [hm] at h
    cases ha : getS rm "acc" with
    | none => simp only [ha] at h; exact Option.noConfusion h
    | some acc =>
      simp only [ha] at h
      cases hf : expFields e with
      | none => simp only [hf] at h; exact Option.noConfusion h
      | some rest =>
        simp only [hf] at h
        exact ⟨acc, rest, rfl, (Option.some.inj h).symm⟩

/-- Sequencing field reads preserves the count. -/
theorem seqO_length : ∀ (l : List (Option String)) (xs : List String),
    seqO l = some xs → xs.length = l.length := by
  intro l
  induction l with
  | nil =>
    intro xs h
    simp only [seqO] at h
    rw [← Option.some.inj h]
    rfl
  | cons o rest ih =>
    intro xs h
    simp only [seqO] at h
    cases ho : o with
    | none => simp only [ho] at h; exact Option.noConfusion h
    | some s =>
      simp only [ho] at h
      cases hs : seqO rest with
      | none => simp only [hs] at h; exact Option.noConfusion h
      | some ys =>
        simp only [hs] at h
        rw [← Option.some.inj h]
        simp [ih ys hs]

/-- A successful experiment-field read yields exactly 18 strings. -/
theorem expFields_length (e : Record) (rest : List String)
    (h : expFields e = some rest) : rest.length = 18 := by
  unfold expFields at h
  simpa using seqO_length _ rest h

/-- Row/run correspondence of the `for run in e['runs']` loop. -/
theorem mapRows_forall2 (e : Record) :
    ∀ (runs : List NValue) (rows : List (List String)),
      mapRows e runs = (rows, true) →
      List.Forall₂ (fun run row => rowOfRun e run = some row) runs rows := by
  intro runs
  induction runs with
  | nil =>
    intro rows h
    simp only [mapRows] at h
    injection h with h1 _
    rw [← h1]
    exact List.Forall₂.nil
  | cons run rest ih =>
    intro rows h
    simp only [mapRows] at h
    cases hr : rowOfRun e run with
    | none =>
      simp only [hr] at h
      injection h with _ h2
      cases h2
    | some row =>
      simp only [hr] at h
      injection h with h1 h2
      have hrest : mapRows e rest = ((mapRows e rest).1, true) := by
        rw [← h2]
      rw [← h1]
      exact List.Forall₂.cons hr (ih _ hrest)

/-- Every printed row is the run accession followed by the (shared)
experiment fields. -/
theorem forall2_rows_tail (e : Record) (runs : List NValue)
    (rows : List (List String))
    (h : List.Forall₂ (fun run row => rowOfRun e run = some row) runs rows) :
    ∀ r ∈ rows, ∃ acc rest, expFields e = some rest ∧ r = acc :: rest := by
  induction h with
  | nil => intro r hr; cases hr
  | cons hrel _ ih =>
    intro r hr
    rcases List.mem_cons.mp hr with h1 | h2
    · subst h1
      exact rowOfRun_shape _ _ _ hrel
    · exact ih r h2

/-- The platform filter in terms of the record's `Instrument` mapping. -/
theorem keepRecord_true_iff (r : Record) :
    keepRecord r = some true ↔
      ∃ m, lookupD r "Instrument" = some (NValue.mapping m) ∧
           m.any (fun p => p.1 == "ILLUMINA") = true := by
  unfold keepRecord
  cases h : lookupD r "Instrument" with
  | none => simp
  | some v =>
    cases v with
    | scalar s => simp
    | null => simp
    | mapping m => simp
    | vlist l => simp

/-! ## Claim theorems -/

/-- C1 counterexample: normalizing `<root><x>1</x><x>2</x></root>` does
NOT yield a Mapping with `x` mapped to a List of the Scalars `"1"` and
`"2"`; it yields `x` mapped to the Scalar `"2"` (the second sibling
overwrites the first). -/
theorem C1_counterexample :
    parseFragment c1frag = [("x", NValue.scalar "2")] ∧
    parseFragment c1frag ≠
      [("x", NValue.vlist [NValue.scalar "1", NValue.scalar "2"])] := by
  refine ⟨rfl, ?_⟩
  intro h
  rw [show parseFragment c1frag = [("x", NValue.scalar "2")] from rfl] at h
  injection h with h1 _
  injection h1 with _ hb
  exact NValue.noConfusion hb

/-- C1 (amended): normalizing `<root><x>1</x><x>2</x></root>` yields the
Mapping `{x: "2"}` — same-tag siblings of a childless shape overwrite each
other at the parent; the list-shape rule inspects the first two children of
each child element (one level below the parent), as witnessed by
`<root><Runs><Run a="1"/><Run a="2"/></Runs></root>` normalizing `Runs` to
`{Run: [{a:"1"}, {a:"2"}]}`. -/
theorem C1_amended_thm :
    parseFragment c1frag = [("x", NValue.scalar "2")] ∧
    parseFragment c1bfrag =
      [("Runs", NValue.mapping [("Run", NValue.vlist
        [NValue.mapping [("a", NValue.scalar "1")],
         NValue.mapping [("a", NValue.scalar "2")]])])] :=
  ⟨rfl, rfl⟩

/-- C2: evaluation at a failing input.  With two pages each contributing
one kept record, the printing loop (nested inside the page loop, iterating
the accumulated `experiments` list) emits the first page's row again while
processing the second page: the output is `[rowA, rowA, rowB]`, not
`[rowA, rowB]` — so a kept (experiment, run) pair does not contribute
exactly one output row and earlier pages' records are re-emitted. -/
theorem C2_code_bug_eval :
    (runPipeline tC2 true 500).rows = [rowA, rowA, rowB] ∧ rowA ≠ rowB :=
  ⟨rfl, by decide⟩

/-- C3: for every kept experiment record whose `runs` field holds the list
`runs`, a successful `print_experiment_csv` produces exactly one row per
attached run, in run order (`Forall₂` pairs the i-th run with the i-th
row), and all rows agree on everything after the leading `run_accession`
field (the 18 experiment-level fields are repeated identically). -/
theorem C3_flattener (e : Record) (runs : List NValue)
    (rows : List (List String))
    (h1 : lookupD e "runs" = some (NValue.vlist runs))
    (h2 : print_experiment_csv e = (rows, true)) :
    rows.length = runs.length ∧
    List.Forall₂ (fun run row => rowOfRun e run = some row) runs rows ∧
    ∀ r1 ∈ rows, ∀ r2 ∈ rows, r1.tail = r2.tail := by
  have hm : mapRows e runs = (rows, true) := by
    unfold print_experiment_csv at h2
    simpa only [h1] using h2
  have hf := mapRows_forall2 e runs rows hm
  refine ⟨(List.Forall₂.length_eq hf).symm, hf, ?_⟩
  intro r1 hr1 r2 hr2
  obtain ⟨a1, s1, he1, hq1⟩ := forall2_rows_tail e runs rows hf r1 hr1
  obtain ⟨a2, s2, he2, hq2⟩ := forall2_rows_tail e runs rows hf r2 hr2
  subst hq1; subst hq2
  have hss : s1 = s2 := Option.some.inj (he1.symm.trans he2)
  simp [hss]

/-- C3 witness: a record with 2 attached runs produces exactly 2 rows, in
run order, that differ only in the `run_accession` field. -/
theorem C3_witness :
    [rowA, rowB].length = [run1v, run2v].length ∧
    List.Forall₂ (fun run row => rowOfRun rec2 run = some row)
      [run1v, run2v] [rowA, rowB] ∧
    ∀ r1 ∈ [rowA, rowB], ∀ r2 ∈ [rowA, rowB], r1.tail = r2.tail :=
  C3_flattener rec2 [run1v, run2v] [rowA, rowB] rfl rfl

/-- C4 counterexample: with page 500's response body carrying the API
error marker, the pipeline does NOT abort: the request for page 1000 is
still issued, and rows keep being emitted while processing the marker page
and the later page (the stale page-0 payload is re-processed each time),
growing from 1 row after page 0 to 5 rows after page 1000. -/
theorem C4_counterexample :
    hasErrorMarker (tC4 500).body = true ∧
    (runPipeline tC4 true 1000).reqs =
      [Request.mk 0 500, Request.mk 500 500, Request.mk 1000 500] ∧
    (runPipeline tC4 true 0).rows = [rowA] ∧
    (runPipeline tC4 true 1000).rows = [rowA, rowA, rowA, rowA, rowA] :=
  ⟨rfl, rfl, rfl, rfl⟩

/-- C4 (amended): a page response containing the API error marker does not
terminate the pipeline; the request is still logged, the parsed payload is
left unrefreshed, and the loop continues by processing the stale payload
(so rows may be emitted for that page and later pages, and later page
requests are still issued). -/
theorem C4_amended_thm (t : Transport) (st : SimState) (r : Nat)
    (h1 : st.aborted = false) (h2 : hasErrorMarker (t r).body = true) :
    stepPage t true st r =
      processData { st with reqs := st.reqs ++ [Request.mk r 500] } := by
  unfold stepPage refreshData
  simp [h1, h2]

/-- C4 amended-claim witness at a concrete state and transport. -/
theorem C4_amended_witness :
    stepPage tC4 true (runPipeline tC4 true 0) 500 =
      processData { runPipeline tC4 true 0 with
                    reqs := (runPipeline tC4 true 0).reqs ++ [Request.mk 500 500] } :=
  C4_amended_thm tC4 (runPipeline tC4 true 0) 500 rfl rfl

/-- C5: when the search call produced a token and the run did not
terminate early, the loop issues summary requests exactly at the retstart
values of `range(0, M + 1, 500)` — the multiples of 500 up to `M`
inclusive — each carrying `retmax = 500`, for every transport (the
server-reported total never enters the decision). -/
theorem C5_pagination (t : Transport) (M : Nat)
    (h : (runPipeline t true M).aborted = false) :
    (runPipeline t true M).reqs = (intervals M).map (fun r => Request.mk r 500) ∧
    ∀ r : Nat, r ∈ intervals M ↔ (500 ∣ r ∧ r ≤ M) := by
  constructor
  · have := runPipeline_reqs_aux t (intervals M) initState h
    simpa [initState] using this
  · intro r
    exact mem_intervals M r

/-- C5 witness: `max_samples = 1200` yields exactly three requests, at
retstart 0, 500 and 1000, each with `retmax = 500`. -/
theorem C5_witness :
    (runPipeline tBenign true 1200).reqs =
        (intervals 1200).map (fun r => Request.mk r 500) ∧
    (intervals 1200).map (fun r => Request.mk r 500) =
        [Request.mk 0 500, Request.mk 500 500, Request.mk 1000 500] :=
  ⟨(C5_pagination tBenign 1200 rfl).1, rfl⟩

/-- C6: a record is kept from a page (and hence flows to the output) iff
it was assembled from one of the page's entries and its normalized
`Instrument` mapping contains the exact key `ILLUMINA`; records failing
the filter are silently dropped — the kept list records nothing about
them. -/
theorem C6_filter (entries : List UidEntry) (kept : List Record)
    (h : assemblePage entries = some kept) (r : Record) :
    r ∈ kept ↔
      ((∃ u ∈ entries, assembleRecord u = some r) ∧
       ∃ m, lookupD r "Instrument" = some (NValue.mapping m) ∧
            m.any (fun p => p.1 == "ILLUMINA") = true) := by
  rw [← keepRecord_true_iff r]
  induction entries generalizing kept with
  | nil =>
    simp only [assemblePage] at h
    rw [← Option.some.inj h]
    simp
  | cons u rest ih =>
    simp only [assemblePage] at h
    cases ha : assembleRecord u with
    | none => simp only [ha] at h; exact Option.noConfusion h
    | some r0 =>
      simp only [ha] at h
      cases hk : keepRecord r0 with
      | none => simp only [hk] at h; exact Option.noConfusion h
      | some b =>
        simp only [hk] at h
        cases hp : assemblePage rest with
        | none => simp only [hp] at h; exact Option.noConfusion h
        | some ks =>
          simp only [hp] at h
          rw [← Option.some.inj h]
          have ihk := ih ks hp
          cases b with
          | true =>
            rw [if_pos rfl]
            constructor
            · intro hr
              rcases List.mem_cons.mp hr with h1 | h2
              · subst h1
                exact ⟨⟨u, List.mem_cons_self u rest, ha⟩, hk⟩
              · obtain ⟨⟨u2, hu2, hau⟩, hkr⟩ := ihk.mp h2
                exact ⟨⟨u2, List.mem_cons_of_mem u hu2, hau⟩, hkr⟩
            · rintro ⟨⟨u2, hu2, hau⟩, hkr⟩
              rcases List.mem_cons.mp hu2 with h1 | h2
              · subst h1
                have hrr : r = r0 := Option.some.inj (hau.symm.trans ha)
                subst hrr
                exact List.mem_cons_self r ks
              · exact List.mem_cons_of_mem r0 (ihk.mpr ⟨⟨u2, h2, hau⟩, hkr⟩)
          | false =>
            rw [if_neg Bool.false_ne_true]
            rw [ihk]
            constructor
            · rintro ⟨⟨u2, hu2, hau⟩, hkr⟩
              exact ⟨⟨u2, List.mem_cons_of_mem u hu2, hau⟩, hkr⟩
            · rintro ⟨⟨u2, hu2, hau⟩, hkr⟩
              rcases List.mem_cons.mp hu2 with h1 | h2
              · subst h1
                have hrr : r = r0 := Option.some.inj (hau.symm.trans ha)
                subst hrr
                rw [hk] at hkr
                exact absurd (Option.some.inj hkr) (by simp)
              · exact ⟨⟨u2, h2, hau⟩, hkr⟩

/-- C6 witness: from the page `[entryA, entryN]` the `ILLUMINA` record is
kept. -/
theorem C6_witness : recA ∈ keptC6 :=
  (C6_filter [entryA, entryN] keptC6 rfl recA).mpr
    ⟨⟨entryA, List.mem_cons_self entryA [entryN], rfl⟩,
     [("ILLUMINA", NValue.scalar "MiSeq")], rfl, rfl⟩

/-- C7 counterexample: an emitted output row has 19 fields, not 18. -/
theorem C7_counterexample :
    print_experiment_csv recA = ([rowA], true) ∧
    rowA.length = 19 ∧ ¬ rowA.length = 18 :=
  ⟨rfl, rfl, by decide⟩

set_option maxRecDepth 40000 in
/-- C7 (amended): every emitted data row has exactly 19 string fields; the
`output_fields` list has 18 entries, one of which
(`'instrument,submitter'`) contains an embedded comma, so the printed
header line contains 18 commas — 19 comma-separated names — and its names
differ from the spec's schema at `submitter` (spec: `submitter_center`)
and `total_size_mb` (spec: `total_size`). -/
theorem C7_amended_thm :
    (∀ (e : Record) (run : NValue) (row : List String),
        rowOfRun e run = some row → row.length = 19) ∧
    output_fields.length = 18 ∧
    headerLine = "run_accession,bioproject_accession,experiment_accession,experiment_title,organism_name,instrument,submitter,study_accession,study_title,sample_accession,sample_title,total_size_mb,total_runs,total_spots,total_bases,library_name,library_strategy,library_source,library_selection" ∧
    (headerLine.data.count ',') = 18 := by
  refine ⟨?_, rfl, by decide, by decide⟩
  intro e run row h
  obtain ⟨acc, rest, he, hr⟩ := rowOfRun_shape e run row h
  subst hr
  simp [expFields_length e rest he]

/-- C7 amended-claim witness: a concrete emitted row has 19 fields. -/
theorem C7_witness : rowA.length = 19 :=
  C7_amended_thm.1 recA run1v rowA rfl

/-- C8 counterexample: an element with whitespace-only text normalizes to
the Scalar `" "`, not to an absent/null value, and text is not trimmed:
`<a> 1 </a>` normalizes to the Scalar `" 1 "`, not `"1"`. -/
theorem C8_counterexample :
    parseFragment (xl [Xml.elem "a" [] (some " ") XmlList.nil]) =
      [("a", NValue.scalar " ")] ∧
    NValue.scalar " " ≠ NValue.null ∧
    parseFragment (xl [Xml.elem "a" [] (some " 1 ") XmlList.nil]) =
      [("a", NValue.scalar " 1 ")] ∧
    NValue.scalar " 1 " ≠ NValue.scalar "1" := by
  refine ⟨rfl, ?_, rfl, ?_⟩
  · intro h; exact NValue.noConfusion h
  · intro h
    injection h with h1
    exact absurd h1 (by decide)

/-- C8 (amended): for every XML element with no child elements and no
attributes, the normalizer emits a Scalar holding the raw, untrimmed text
content; only an element with absent text normalizes to null. -/
theorem C8_amended_thm (tag : String) (t : String) :
    childValue (Xml.elem tag [] (some t) XmlList.nil) = NValue.scalar t ∧
    childValue (Xml.elem tag [] none XmlList.nil) = NValue.null :=
  ⟨rfl, rfl⟩

/-- C9: the API error marker is a substring test: whenever the raw
response body contains `"error":` — whatever the payload decodes to, and
whether or not the response is a genuine API error — the refresh phase
leaves the parsed payload exactly as it was (and continues without
terminating), while still logging the request. -/
theorem C9_marker (t : Transport) (st : SimState) (r : Nat)
    (h : hasErrorMarker (t r).body = true) :
    (refreshData t true st r).dat = st.dat ∧
    (refreshData t true st r).aborted = st.aborted ∧
    (refreshData t true st r).reqs = st.reqs ++ [Request.mk r 500] := by
  unfold refreshData
  simp [h]

/-- C9 witness: a body carrying `"error":` inside legitimate data, with a
perfectly decodable payload, still leaves the parsed payload
unrefreshed. -/
theorem C9_witness :
    (refreshData tC9 true initState 0).dat = initState.dat ∧
    (refreshData tC9 true initState 0).aborted = initState.aborted ∧
    (refreshData tC9 true initState 0).reqs =
      initState.reqs ++ [Request.mk 0 500] :=
  C9_marker tC9 initState 0 rfl

/-- C10: an element with no child elements and at least one attribute
normalizes to a Mapping built solely from its attributes, without
inspecting the text: the result is the same whatever the text content
is. -/
theorem C10_attrs_text (tag : String) (attrs : List (String × String))
    (t : Option String) (h : attrs ≠ []) :
    childValue (Xml.elem tag attrs t XmlList.nil) =
      NValue.mapping (attrsDict attrs) ∧
    childValue (Xml.elem tag attrs t XmlList.nil) =
      childValue (Xml.elem tag attrs none XmlList.nil) := by
  cases attrs with
  | nil => exact absurd rfl h
  | cons a as => exact ⟨rfl, rfl⟩

/-- C10 witness: an attributed element with non-empty text normalizes to
its attribute mapping, the text silently discarded. -/
theorem C10_witness :
    childValue (Xml.elem "RUN" [("acc", "R9")] (some "ignored") XmlList.nil) =
      NValue.mapping (attrsDict [("acc", "R9")]) :=
  (C10_attrs_text "RUN" [("acc", "R9")] (some "ignored") (by simp)).1

end Sra
